import Mathlib

/-!
Verification development for the remote data-ingestion and schema-inference
subsystem of the datastation repository.

Part 1 models the structural type-inference engine (ShapeEngine and
BudgetedFileReader).  The Go implementation (`runner/shape.go`) is not part of
the sources available here; only its test suite (`TestGetShape`,
`TestShapeFromFile`) is.  The definitions in this part are therefore modelled
from the specification's description of the algorithm, with the expected
outputs of the in-repository tests pinning concrete behavior.

Part 2 is a shallow embedding of `runner/ssh.go` (SSH session factory, remote
stream reader, tunnel forwarder).  External effects (file system, crypto
library, network dial, channels) are supplied by explicit environment records;
the control flow of each Go function is translated statement by statement.
-/

namespace Datastation

/-! ## Part 1: ShapeEngine -/

/-- Scalar classification of a decoded JSON value. -/
inductive ScalarName where
  | number
  | string
  | boolean
  | null
deriving DecidableEq, Repr

/-- Modelled from the spec: the `Shape` tagged tree node of `runner/shape.go`
(whose implementation is not among the available sources).  Object children
are kept as an association list in insertion order (the Go code uses a map,
for which equality is order-irrelevant; the order here is a deterministic
artifact of the embedding). -/
inductive Shape where
  | unknown
  | scalar (name : ScalarName)
  | obj (children : List (String × Shape))
  | arr (children : Shape)
  | varied (children : List Shape)

/-- Field lookup in an object shape's association list. -/
def lookupField (k : String) : List (String × Shape) → Option Shape
  | [] => none
  | kv :: rest => if kv.1 == k then some kv.2 else lookupField k rest

mutual
/-- Structural equality of shapes. -/
def shapeBeq : Shape → Shape → Bool
  | .unknown, .unknown => true
  | .scalar x, .scalar y => x == y
  | .arr x, .arr y => shapeBeq x y
  | .obj xs, .obj ys => fieldsBeq xs ys
  | .varied xs, .varied ys => shapeListBeq xs ys
  | _, _ => false
/-- Structural equality of object children lists. -/
def fieldsBeq : List (String × Shape) → List (String × Shape) → Bool
  | [], [] => true
  | kv :: xs, kw :: ys => kv.1 == kw.1 && shapeBeq kv.2 kw.2 && fieldsBeq xs ys
  | _, _ => false
/-- Structural equality of shape lists. -/
def shapeListBeq : List Shape → List Shape → Bool
  | [], [] => true
  | x :: xs, y :: ys => shapeBeq x y && shapeListBeq xs ys
  | _, _ => false
end

/-- The members of a shape viewed as a `Varied` operand: a `Varied` shape is
flattened into its alternatives, any other shape stands alone. -/
def variedMembers : Shape → List Shape
  | .varied cs => cs
  | s => [s]

/-- Whether a structurally equal shape is already present in a list. -/
def shapeInList (s : Shape) (l : List Shape) : Bool := l.any (fun t => shapeBeq s t)

/-- Modelled from the spec: combining two structurally incompatible shapes
into a `Varied` shape.  Existing `Varied` operands are flattened; each
alternative of the right operand is appended only if not already structurally
present, preserving discovery order. -/
def variedCombine (a b : Shape) : Shape :=
  Shape.varied ((variedMembers b).foldl
    (fun acc s => if shapeInList s acc then acc else acc ++ [s])
    (variedMembers a))

mutual
/-- Modelled from the spec: the pairwise, order-sensitive `Merge` operator of
the ShapeEngine.  `Unknown` is an identity element; objects merge key-wise
(union of keys, recursive merge on shared keys, one-sided keys kept); arrays
merge their single children shapes; structurally equal shapes merge to
themselves; anything else produces or extends a `Varied` shape whose
alternative order is first-occurrence order with structural duplicates
collapsed. -/
def mergeShape : Shape → Shape → Shape
  | .unknown, b => b
  | a, .unknown => a
  | .obj xs, .obj ys =>
      Shape.obj (mergeFields xs ys ++ ys.filter (fun kv => (lookupField kv.1 xs).isNone))
  | .arr x, .arr y => Shape.arr (mergeShape x y)
  | a, b => if shapeBeq a b then a else variedCombine a b
/-- Key-wise merge of the left object's children against the right object's:
shared keys merge recursively, left-only keys are kept as-is. -/
def mergeFields : List (String × Shape) → List (String × Shape) → List (String × Shape)
  | [], _ => []
  | kv :: xs, ys =>
      (match lookupField kv.1 ys with
       | some y => (kv.1, mergeShape kv.2 y)
       | none => kv) :: mergeFields xs ys
end

/-- A decoded JSON document (the result of `json.Unmarshal` into
`interface{}` in the Go code). -/
inductive Json where
  | null
  | bool (b : Bool)
  | num (n : Int)
  | str (s : String)
  | arr (elems : List Json)
  | obj (fields : List (String × Json))

/-- Modelled from the spec: recursive classification of a decoded JSON value
(`Infer`), missing from the available sources.  `maxDepth` bounds the
recursion; beyond the bound sub-values are reported as `Unknown`.  An array's
element shapes are left-fold merged starting from `Unknown` (the identity
element), so an empty array produces an `Array` shape whose children shape
is `Unknown`. -/
def infer : Nat → Json → Shape
  | 0, _ => Shape.unknown
  | d + 1, v =>
    match v with
    | .null => Shape.scalar .null
    | .bool _ => Shape.scalar .boolean
    | .num _ => Shape.scalar .number
    | .str _ => Shape.scalar .string
    | .obj fs => Shape.obj (fs.map (fun kv => (kv.1, infer d kv.2)))
    | .arr xs => Shape.arr (xs.foldl (fun acc x => mergeShape acc (infer d x)) Shape.unknown)

/-- Modelled from the spec: `GetShape(id, value, maxDepth)`, the entry point
of the ShapeEngine.  The label is carried for interface fidelity only. -/
def GetShape (_label : String) (v : Json) (maxDepth : Nat) : Shape := infer maxDepth v

/-! ## Part 1b: JSON decoding (stands in for Go's `encoding/json`) -/

/-- Skip JSON whitespace. -/
def skipWs : List Char → List Char
  | c :: rest =>
      if c = ' ' ∨ c = '\n' ∨ c = '\t' ∨ c = '\r' then skipWs rest else c :: rest
  | [] => []

/-- Translate a character appearing after a backslash in a JSON string. -/
def unescapeChar (c : Char) : Char :=
  if c = 'n' then '\n' else if c = 't' then '\t' else if c = 'r' then '\r' else c

/-- Parse the body of a JSON string after the opening quote, handling
backslash escapes; returns the content and the input after the closing
quote. -/
def parseStringBody : List Char → Option (List Char × List Char)
  | [] => none
  | '"' :: rest => some ([], rest)
  | '\\' :: e :: rest =>
      (parseStringBody rest).map (fun p => (unescapeChar e :: p.1, p.2))
  | ['\\'] => none
  | c :: rest => (parseStringBody rest).map (fun p => (c :: p.1, p.2))

/-- Parse a JSON number token (optional minus, digits, optional fraction;
the fractional digits are consumed but only the integral part is kept, the
shape engine only uses the numeric classification). -/
def parseNumberTok (cs : List Char) : Option (Json × List Char) :=
  let neg : Bool := cs.head? = some '-'
  let cs1 := if neg then cs.tail else cs
  let ds := cs1.takeWhile Char.isDigit
  let rest := cs1.dropWhile Char.isDigit
  if ds.isEmpty then none
  else
    let n : Nat := ds.foldl (fun acc c => acc * 10 + (c.toNat - 48)) 0
    let v : Json := Json.num (if neg then -(n : Int) else (n : Int))
    match rest with
    | '.' :: r =>
        let fs := r.takeWhile Char.isDigit
        if fs.isEmpty then none else some (v, r.dropWhile Char.isDigit)
    | _ => some (v, rest)

/-- Consume the expected remaining characters of a literal keyword. -/
def dropLit : List Char → List Char → Option (List Char)
  | [], rest => some rest
  | k :: ks, c :: rest => if c = k then dropLit ks rest else none
  | _ :: _, [] => none

/-- Mode of the recursive-descent JSON parser. -/
inductive PMode where
  | value
  | items
  | fields

/-- Result of one parsing mode. -/
inductive POut where
  | val (v : Json)
  | items (vs : List Json)
  | fields (fs : List (String × Json))

/-- Fuel-bounded recursive-descent JSON parser (one function covering the
value / array-items / object-fields modes; the fuel is an embedding artifact
and `parseDoc` always supplies enough of it). -/
def parseF : Nat → PMode → List Char → Option (POut × List Char)
  | 0, _, _ => none
  | fuel + 1, PMode.value, cs =>
    match skipWs cs with
    | [] => none
    | c :: rest =>
      if c = 'n' then
        (dropLit ['u', 'l', 'l'] rest).map (fun r => (.val .null, r))
      else if c = 't' then
        (dropLit ['r', 'u', 'e'] rest).map (fun r => (.val (.bool true), r))
      else if c = 'f' then
        (dropLit ['a', 'l', 's', 'e'] rest).map (fun r => (.val (.bool false), r))
      else if c = '"' then
        match parseStringBody rest with
        | some (s, r) => some (.val (.str (String.mk s)), r)
        | none => none
      else if c = '[' then
        match skipWs rest with
        | ']' :: r => some (.val (.arr []), r)
        | cs2 =>
          match parseF fuel PMode.items cs2 with
          | some (POut.items vs, r) => some (.val (.arr vs), r)
          | _ => none
      else if c = '{' then
        match skipWs rest with
        | '}' :: r => some (.val (.obj []), r)
        | cs2 =>
          match parseF fuel PMode.fields cs2 with
          | some (POut.fields fs, r) => some (.val (.obj fs), r)
          | _ => none
      else
        match parseNumberTok (c :: rest) with
        | some (v, r) => some (.val v, r)
        | none => none
  | fuel + 1, PMode.items, cs =>
    match parseF fuel PMode.value cs with
    | some (POut.val v, rest) =>
      (match skipWs rest with
       | ',' :: r2 =>
         (match parseF fuel PMode.items r2 with
          | some (POut.items vs, r3) => some (.items (v :: vs), r3)
          | _ => none)
       | ']' :: r2 => some (.items [v], r2)
       | _ => none)
    | _ => none
  | fuel + 1, PMode.fields, cs =>
    match skipWs cs with
    | '"' :: rest =>
      (match parseStringBody rest with
       | none => none
       | some (k, r1) =>
         match skipWs r1 with
         | ':' :: r2 =>
           (match parseF fuel PMode.value r2 with
            | some (POut.val v, r3) =>
              (match skipWs r3 with
               | ',' :: r4 =>
                 (match parseF fuel PMode.fields r4 with
                  | some (POut.fields fs, r5) => some (.fields ((String.mk k, v) :: fs), r5)
                  | _ => none)
               | '}' :: r4 => some (.fields [(String.mk k, v)], r4)
               | _ => none)
            | _ => none)
         | _ => none)
    | _ => none

/-- Decode a whole JSON document: one value followed only by whitespace. -/
def parseDoc (cs : List Char) : Option Json :=
  match parseF (2 * cs.length + 2) PMode.value cs with
  | some (POut.val v, rest) => if (skipWs rest).isEmpty then some v else none
  | _ => none

/-! ## Part 1c: BudgetedFileReader -/

/-- State of the quote/escape-aware, bracket-depth-aware truncation scanner:
whether the scanner is inside a string literal, whether the previous byte was
a backslash escape, and the stack of currently open brackets. -/
structure ScanState where
  inString : Bool
  escaped : Bool
  stack : List Char

/-- Initial scanner state. -/
def initScan : ScanState := ⟨false, false, []⟩

/-- One step of the truncation scanner. -/
def scanStep (st : ScanState) (c : Char) : ScanState :=
  if st.inString then
    if st.escaped then ⟨true, false, st.stack⟩
    else if c = '\\' then ⟨true, true, st.stack⟩
    else if c = '"' then ⟨false, false, st.stack⟩
    else st
  else if c = '"' then ⟨true, false, st.stack⟩
  else if c = '[' ∨ c = '{' then ⟨false, false, c :: st.stack⟩
  else if c = ']' ∨ c = '}' then ⟨false, false, st.stack.tail⟩
  else st

/-- The closing brackets needed to close a stack of open brackets. -/
def closersFor : List Char → List Char
  | [] => []
  | '[' :: rest => ']' :: closersFor rest
  | '{' :: rest => '}' :: closersFor rest
  | _ :: rest => closersFor rest

/-- All safe truncation points of the input: positions of a structural
closing bracket outside any string literal, paired with the closing brackets
that make the input up to and including that position a syntactically
closable JSON document. -/
def safePoints : ScanState → Nat → List Char → List (Nat × List Char)
  | _, _, [] => []
  | st, i, c :: rest =>
    let st' := scanStep st c
    let here :=
      if !st.inString ∧ (c = ']' ∨ c = '}') then [(i, closersFor st'.stack)] else []
    here ++ safePoints st' (i + 1) rest

/-- Modelled from the spec: `ShapeFromFile(path, label, maxBytes, maxDepth)`
of `runner/shape.go` (implementation not among the available sources; the
file is represented by its character contents).  A file that fits within the
byte budget is decoded directly.  Otherwise the reader consumes budget-sized
chunks until one contains a safe truncation point (the in-repository test
`TestShapeFromFile` pins this: an 8-byte budget against a 41-byte two-element
array still succeeds with the shape of the first complete element), truncates
at the last safe point of the consumed chunks, appends the closing brackets,
decodes, and infers.  A truncation error is reported only when the whole
input contains no safe truncation point. -/
def ShapeFromFile (contents : List Char) (label : String) (maxBytes maxDepth : Nat) :
    Except String Shape :=
  if contents.length ≤ maxBytes then
    match parseDoc contents with
    | some v => .ok (GetShape label v maxDepth)
    | none => .error "Could not decode file"
  else
    let pts := safePoints initScan 0 contents
    match pts.head? with
    | none => .error "Cannot truncate JSON file"
    | some (m, _) =>
      let consumed := maxBytes * (m / maxBytes + 1)
      match (pts.filter (fun p => p.1 < consumed)).getLast? with
      | none => .error "Cannot truncate JSON file"
      | some (i, closers) =>
        let truncated := contents.take (i + 1) ++ closers
        match parseDoc truncated with
        | some v => .ok (GetShape label v maxDepth)
        | none => .error "Could not decode truncated file"

/-! ## Part 2: shallow embedding of `runner/ssh.go`

External effects are supplied through explicit environment records: file
system reads and stat probes, the crypto library (PEM decoding, PEM-block
decryption, key parsing, signer construction), the credential resolver, and
network dialing.  Each Go function is translated branch by branch; errors are
modelled with `Except String` / `Option`, matching Go's `(value, error)` and
`error` results. -/

/-- An encrypted credential, decrypted on demand by the external credential
resolver (`si.Password.decrypt()` / `si.Passphrase.decrypt()`). -/
structure EncryptedSecret where
  ciphertext : String
deriving DecidableEq, Repr

/-- The authentication kind of a `ServerInfo` (`si.Type`). -/
inductive SSHAuthKind where
  | password
  | privateKey
  | agent
deriving DecidableEq, Repr

/-- The remote host descriptor consumed by `getSSHClient`. -/
structure ServerInfo where
  username : String
  kind : SSHAuthKind
  password : EncryptedSecret
  passphrase : EncryptedSecret
  privateKeyFile : String
  address : String

/-- A key-backed authentication credential (`ssh.Signer`), abstracted to an
identifier chosen by the environment. -/
structure Signer where
  id : String
deriving DecidableEq, Repr

/-- Parsed private-key material (the `interface{}` returned by the x509/ssh
parsers), abstracted to an identifier chosen by the environment. -/
structure KeyMaterial where
  id : String
deriving DecidableEq, Repr

/-- An `ssh.AuthMethod`: either a plaintext password or a public-key signer. -/
inductive AuthMethod where
  | password (pw : String)
  | publicKeys (s : Signer)
deriving DecidableEq, Repr

/-- A decoded PEM block: its declared type string and its payload bytes. -/
structure PemBlock where
  type : String
  bytes : String
deriving DecidableEq, Repr

/-- Environment of external capabilities used by the SSH session factory:
file system, PEM/x509/ssh crypto primitives, credential resolver, and
network dial. -/
structure SSHEnv where
  resolvePath : String → String
  readFile : String → Except String String
  pemDecode : String → Option PemBlock
  isEncryptedPEMBlock : PemBlock → Bool
  decryptPEMBlock : PemBlock → String → Except String String
  parsePKCS1PrivateKey : String → Except String KeyMaterial
  parseECPrivateKey : String → Except String KeyMaterial
  parseDSAPrivateKey : String → Except String KeyMaterial
  newSignerFromKey : KeyMaterial → Except String Signer
  parsePrivateKey : String → Except String Signer
  decrypt : EncryptedSecret → Except String String
  statExists : String → Bool
  dialErr : String → List AuthMethod → Option String

/-- `parsePemBlock` of `runner/ssh.go`: dispatch on the PEM block's declared
type (RSA, EC, DSA), with a descriptive error for unsupported types. -/
def parsePemBlock (env : SSHEnv) (block : PemBlock) : Except String KeyMaterial :=
  if block.type = "RSA PRIVATE KEY" then
    match env.parsePKCS1PrivateKey block.bytes with
    | .error e => .error ("Parsing PKCS private key failed: " ++ e)
    | .ok key => .ok key
  else if block.type = "EC PRIVATE KEY" then
    match env.parseECPrivateKey block.bytes with
    | .error e => .error ("Parsing EC private key failed: " ++ e)
    | .ok key => .ok key
  else if block.type = "DSA PRIVATE KEY" then
    match env.parseDSAPrivateKey block.bytes with
    | .error e => .error ("Parsing DSA private key failed: " ++ e)
    | .ok key => .ok key
  else
    .error ("Unsupported private key type: " ++ block.type)

/-- `getSSHPrivateKeySigner` of `runner/ssh.go`: read the key file, PEM-decode
it; an encrypted PEM block is decrypted with the passphrase, parsed by type
and turned into a signer; an unencrypted key is parsed directly from the raw
PEM bytes (the passphrase is never consulted on that path). -/
def getSSHPrivateKeySigner (env : SSHEnv) (privateKeyFile passphrase : String) :
    Except String AuthMethod :=
  match env.readFile (env.resolvePath privateKeyFile) with
  | .error e => .error ("Unable to read private key: " ++ e)
  | .ok pemBytes =>
    match env.pemDecode pemBytes with
    | none => .error "Private key decode failed"
    | some pemBlock =>
      if env.isEncryptedPEMBlock pemBlock then
        match env.decryptPEMBlock pemBlock passphrase with
        | .error e => .error ("Decrypting private key failed: " ++ e)
        | .ok decrypted =>
          match parsePemBlock env ⟨pemBlock.type, decrypted⟩ with
          | .error e => .error e
          | .ok key =>
            match env.newSignerFromKey key with
            | .error e => .error ("Creating signer from encrypted key failed: " ++ e)
            | .ok signer => .ok (.publicKeys signer)
      else
        match env.parsePrivateKey pemBytes with
        | .error e => .error ("Parsing plain private key failed: " ++ e)
        | .ok signer => .ok (.publicKeys signer)

/-- The fixed ordered list of default key locations probed when no explicit
key file is configured. -/
def defaultKeyFiles : List String :=
  ["~/.ssh/id_rsa", "~/.ssh/id_dsa", "~/.ssh/id_ed25519"]

/-- The default-key probing loop of `getSSHClient`: each existing file is
attempted with an empty passphrase; a failure aborts with that error; a
success overwrites the whole auth list (the loop has no break, so the last
existing file wins); files that do not exist leave the list untouched. -/
def authFromDefaults (env : SSHEnv) : List String → List AuthMethod →
    Except String (List AuthMethod)
  | [], acc => .ok acc
  | f :: rest, acc =>
    let resolved := env.resolvePath f
    if env.statExists resolved then
      match getSSHPrivateKeySigner env resolved "" with
      | .error e => .error e
      | .ok authmethod => authFromDefaults env rest [authmethod]
    else
      authFromDefaults env rest acc

/-- The auth-method selection of `getSSHClient`: the `switch si.Type` block. -/
def authForServer (env : SSHEnv) (si : ServerInfo) : Except String (List AuthMethod) :=
  match si.kind with
  | .password =>
    match env.decrypt si.password with
    | .error e => .error ("Could not decrypt server SSH password: " ++ e)
    | .ok password => .ok [.password password]
  | .privateKey =>
    if si.privateKeyFile ≠ "" then
      match env.decrypt si.passphrase with
      | .error e => .error ("Could not decrypt server SSH passphrase: " ++ e)
      | .ok passphrase =>
        match getSSHPrivateKeySigner env si.privateKeyFile passphrase with
        | .error e => .error e
        | .ok authmethod => .ok [authmethod]
    else
      authFromDefaults env defaultKeyFiles []
  | .agent => .error "SSH Agent authentication is not supported yet."

/-- The authenticated connection produced by `getSSHClient`: the dialed
address together with the client configuration the dial observed. -/
structure SSHClientConn where
  user : String
  auth : List AuthMethod
  address : String
deriving DecidableEq, Repr

/-- Whether a string contains a character (`strings.Contains` on a one-char
substring). -/
def containsChar (s : String) (c : Char) : Bool := s.data.contains c

/-- `getSSHClient` of `runner/ssh.go`: build the auth methods per `si.Type`,
append the default port 22 when the address has none, and dial. -/
def getSSHClient (env : SSHEnv) (si : ServerInfo) : Except String SSHClientConn :=
  match authForServer env si with
  | .error e => .error e
  | .ok auth =>
    let address := if containsChar si.address ':' then si.address else si.address ++ ":22"
    match env.dialErr address auth with
    | some e => .error ("Could not connect to remote server: " ++ e)
    | none => .ok ⟨si.username, auth, address⟩

/-- The conditional remote shell command built by `remoteFileReader`: pipe the
file through gzip when a gzip utility is present, else emit it plainly. -/
def remoteCommand (remoteFileName : String) : String :=
  "if command -v gzip > /dev/null 2>&1;then\n  cat " ++ remoteFileName ++
    " | gzip\nelse\n  cat " ++ remoteFileName ++ "\nfi"

/-- Environment for `remoteFileReader` beyond the SSH factory: session
creation, the remote command's stdout byte stream, command start and wait
results, and the gzip decompressor. -/
structure RemoteEnv where
  ssh : SSHEnv
  newSessionErr : Option String
  stdoutPipe : Except String (List Nat)
  startErr : String → Option String
  gzipNewReader : List Nat → Except String (List Nat)
  waitErr : Option String

/-- `remoteFileReader` of `runner/ssh.go`: open a session, start the
conditional gzip command, peek the first two bytes of its output stream
without consuming them (the buffered reader keeps them readable), wrap the
stream in a gzip reader exactly when the two bytes are the gzip magic number
0x1F 0x8B, invoke the callback with the resulting stream, then wait for the
remote command.  The result pairs the Go function's error result with the
stream the callback was invoked on (`none` when the callback was never
reached). -/
def remoteFileReader (env : RemoteEnv) (si : ServerInfo) (remoteFileName : String)
    (callback : List Nat → Option String) : Option String × Option (List Nat) :=
  match getSSHClient env.ssh si with
  | .error e => (some e, none)
  | .ok _ =>
    match env.newSessionErr with
    | some e => (some e, none)
    | none =>
      match env.stdoutPipe with
      | .error e => (some ("Could not create stdout pipe: " ++ e), none)
      | .ok r =>
        match env.startErr (remoteCommand remoteFileName) with
        | some e => (some ("Could not start session command: " ++ e), none)
        | none =>
          let finish := fun (reader : List Nat) =>
            match callback reader with
            | some e => (some e, some reader)
            | none =>
              match env.waitErr with
              | some e => (some ("Could not complete session: " ++ e), some reader)
              | none => (none, some reader)
          match r with
          | b0 :: b1 :: _ =>
            if b0 = 0x1F ∧ b1 = 0x8B then
              match env.gzipNewReader r with
              | .error e => (some ("Could not create gzip reader: " ++ e), none)
              | .ok fz => finish fz
            else
              finish r
          | _ => (some "Could not read magic number from stream: EOF", none)

/-- Errors circulating on the tunnel's shared error channel (`io.EOF` is a
distinguished value) and returned by the forwarding call. -/
inductive GoErr where
  | eof
  | msg (s : String)
deriving DecidableEq, Repr

/-- Observable effects of one `withRemoteConnection` call, in order. -/
inductive TEffect where
  | listen
  | listenClose
  | sshClient
  | remoteDial (addr : String)
  | remoteClose
  | callback (host port : String)
  | chanRecvNB
deriving DecidableEq, Repr

/-- Environment for `withRemoteConnection` beyond the SSH factory: the local
listener bind result, the ephemeral local port, the remote dial result, and
the value available (if any) on the shared error channel at the moment of the
final non-blocking receive.  The channel carries Go `error` values, so an
available value may itself be nil (`some none`). -/
structure TunnelEnv where
  ssh : SSHEnv
  listenErr : Option String
  localPort : Nat
  remoteDialErr : String → Option String
  chanRecv : Option (Option GoErr)

/-- `withRemoteConnection` of `runner/ssh.go`: with no server descriptor the
callback is invoked directly on the original host and port; otherwise a local
ephemeral listener is bound, the remote target is dialed through the SSH
client, the callback runs against `localhost:<ephemeral port>`, its error is
propagated immediately when non-nil, and otherwise one non-blocking receive
on the error channel returns nil for an available `io.EOF` (or nil), the
error otherwise, and nil when nothing is available.  The result pairs the
returned error with the ordered effect trace. -/
def withRemoteConnection (env : TunnelEnv) (si : Option ServerInfo) (host port : String)
    (cb : String → String → Option GoErr) : Option GoErr × List TEffect :=
  match si with
  | none => (cb host port, [.callback host port])
  | some s =>
    match env.listenErr with
    | some e => (some (.msg e), [.listen])
    | none =>
      match getSSHClient env.ssh s with
      | .error e => (some (.msg e), [.listen, .sshClient, .listenClose])
      | .ok _ =>
        let addr := host ++ ":" ++ port
        match env.remoteDialErr addr with
        | some e => (some (.msg e), [.listen, .sshClient, .remoteDial addr, .listenClose])
        | none =>
          let portStr := toString env.localPort
          let pre := [TEffect.listen, .sshClient, .remoteDial addr, .callback "localhost" portStr]
          match cb "localhost" portStr with
          | some cbErr => (some cbErr, pre ++ [.remoteClose, .listenClose])
          | none =>
            let res : Option GoErr :=
              match env.chanRecv with
              | some (some .eof) => none
              | some received => received
              | none => none
            (res, pre ++ [.chanRecvNB, .remoteClose, .listenClose])

/-! ## Concrete inputs and environments used by the theorems below -/

/-- The file contents of the 8-byte-budget case of `TestShapeFromFile`:
a two-element array of two-field objects. -/
def budget8File : List Char :=
  "[\x7b\"a\": 1, \"b\": \"y\"\x7d, \x7b\"c\": 2, \"d\": \"x\"\x7d]".toList

/-- The shape of the first complete element of `budget8File`. -/
def budget8Shape : Shape :=
  Shape.arr (.obj [("a", .scalar .number), ("b", .scalar .string)])

/-- An input longer than its byte budget with no safe truncation point:
a single long string literal, containing no structural closing bracket. -/
def noSafePointFile : List Char := "\"aaaaaaaa\"".toList

/-- A small document fully contained in the byte budget. -/
def smallFile : List Char := "[1, \"x\"]".toList

/-- The decoded value of `smallFile`. -/
def smallVal : Json := .arr [.num 1, .str "x"]

/-- The decoded value of the `TestGetShape` case containing an empty array
at field `d`. -/
def emptyArrVal : Json :=
  .arr [.obj [("a", .obj [("b", .num 1)]), ("d", .arr []), ("c", .str "2")]]

/-- The decoded value of `TestGetShape`'s number-then-string case. -/
def mixVal1 : Json :=
  .arr [.obj [("a", .num 1)], .obj [("a", .str "2")], .obj [("a", .num 1)]]

/-- The decoded value of `TestGetShape`'s string-then-number case. -/
def mixVal2 : Json :=
  .arr [.obj [("a", .str "9")], .obj [("a", .str "2")], .obj [("a", .num 1)]]

/-- An environment for password authentication: the credential resolver
succeeds, every dial succeeds, no key files exist. -/
def envPw : SSHEnv :=
  ⟨id,                        -- resolvePath
   fun _ => .error "no file", -- readFile
   fun _ => none,             -- pemDecode
   fun _ => false,            -- isEncryptedPEMBlock
   fun _ _ => .error "bad",   -- decryptPEMBlock
   fun _ => .error "bad",     -- parsePKCS1PrivateKey
   fun _ => .error "bad",     -- parseECPrivateKey
   fun _ => .error "bad",     -- parseDSAPrivateKey
   fun _ => .error "bad",     -- newSignerFromKey
   fun _ => .error "bad",     -- parsePrivateKey
   fun _ => .ok "pw",         -- decrypt
   fun _ => false,            -- statExists
   fun _ _ => none⟩           -- dialErr

/-- A password-kind server descriptor. -/
def siPw : ServerInfo := ⟨"u", .password, ⟨"enc"⟩, ⟨""⟩, "", "host"⟩

/-- A private-key-kind server descriptor with no explicit key file. -/
def siKey : ServerInfo := ⟨"u", .privateKey, ⟨""⟩, ⟨""⟩, "", "host"⟩

/-- An environment in which the default key files `~/.ssh/id_rsa` and
`~/.ssh/id_dsa` both exist and both parse (each file's signer is identified
by its path), while `~/.ssh/id_ed25519` does not exist. -/
def envTwoKeys : SSHEnv :=
  ⟨id,
   fun p => .ok p,
   fun s => some ⟨"RSA PRIVATE KEY", s⟩,
   fun _ => false,
   fun _ _ => .error "bad",
   fun _ => .error "bad",
   fun _ => .error "bad",
   fun _ => .error "bad",
   fun _ => .error "bad",
   fun pem => .ok ⟨pem⟩,
   fun _ => .ok "",
   fun p => p == "~/.ssh/id_rsa" || p == "~/.ssh/id_dsa",
   fun _ _ => none⟩

/-- An environment in which `~/.ssh/id_rsa` exists but cannot be read. -/
def envBadKey : SSHEnv :=
  ⟨id,
   fun _ => .error "boom",
   fun _ => none,
   fun _ => false,
   fun _ _ => .error "bad",
   fun _ => .error "bad",
   fun _ => .error "bad",
   fun _ => .error "bad",
   fun _ => .error "bad",
   fun _ => .error "bad",
   fun _ => .ok "",
   fun p => p == "~/.ssh/id_rsa",
   fun _ _ => none⟩

/-- An environment whose key file holds an encrypted PEM block that fails
to decrypt. -/
def envEncKey : SSHEnv :=
  ⟨id,
   fun _ => .ok "pem-bytes",
   fun _ => some ⟨"RSA PRIVATE KEY", "payload"⟩,
   fun _ => true,
   fun _ _ => .error "bad passphrase",
   fun _ => .error "bad",
   fun _ => .error "bad",
   fun _ => .error "bad",
   fun _ => .error "bad",
   fun _ => .error "bad",
   fun _ => .ok "",
   fun _ => true,
   fun _ _ => none⟩

/-- An environment whose key file holds an unencrypted PEM block that parses
into a signer. -/
def envPlainKey : SSHEnv :=
  ⟨id,
   fun _ => .ok "pem-bytes",
   fun _ => some ⟨"RSA PRIVATE KEY", "payload"⟩,
   fun _ => false,
   fun _ _ => .error "bad",
   fun _ => .error "bad",
   fun _ => .error "bad",
   fun _ => .error "bad",
   fun _ => .error "bad",
   fun pem => .ok ⟨pem⟩,
   fun _ => .ok "",
   fun _ => true,
   fun _ _ => none⟩

/-- A remote-reader environment producing a gzip-compressed stream. -/
def envRemote : RemoteEnv :=
  ⟨envPw, none, .ok [0x1F, 0x8B, 7, 7], fun _ => none, fun _ => .ok [9, 9], none⟩

/-- A tunnel environment whose setup succeeds and whose error channel holds
an `io.EOF` at the time of the final non-blocking receive. -/
def envTunnel : TunnelEnv := ⟨envPw, none, 5000, fun _ => none, some (some .eof)⟩

/-! ## Claims -/

/-- Claim C1, counterexample.  The claim asserts that for a file containing a
two-field-object array whose first complete element does not fit in a budget
of 8 bytes, `ShapeFromFile` fails with a truncation error and returns no
shape.  The in-repository test `TestShapeFromFile` pins the opposite: on
exactly that input and budget the call succeeds with a nil error and returns
the shape of the first complete element. -/
theorem C1_counterexample :
    ShapeFromFile budget8File "x" 8 50 = .ok budget8Shape := by rfl

/-- Claim C1, amended.  A byte budget smaller than the first complete element
does not by itself cause a truncation error: reading proceeds in budget-sized
chunks until one contains a safe truncation point, so the 8-byte case
succeeds with the shape of the first complete element.  A truncation error is
returned (for input exceeding the budget) exactly when the whole input
contains no safe truncation point. -/
theorem C1_amended :
    ShapeFromFile budget8File "x" 8 50 = .ok budget8Shape
    ∧ (∀ (cs : List Char) (label : String) (mb md : Nat),
        mb < cs.length →
        safePoints initScan 0 cs = [] →
        ShapeFromFile cs label mb md = .error "Cannot truncate JSON file") := by
  refine ⟨rfl, ?_⟩
  intro cs label mb md hlen hsafe
  unfold ShapeFromFile
  rw [if_neg (by omega)]
  simp [hsafe]

/-- Witness for the amended claim C1 at a concrete input with no safe
truncation point. -/
theorem C1_amended_witness :
    (4 < noSafePointFile.length ∧ safePoints initScan 0 noSafePointFile = [])
    ∧ ShapeFromFile noSafePointFile "x" 4 50 = .error "Cannot truncate JSON file" :=
  ⟨⟨by decide, rfl⟩, C1_amended.2 noSafePointFile "x" 4 50 (by decide) rfl⟩

/-- Claim C3, counterexample.  The claim asserts that an empty JSON array
value yields the `Unknown` shape for that value; the engine (pinned by
`TestGetShape`) instead yields an `Array` shape whose children shape is
`Unknown`, which is a different shape. -/
theorem C3_counterexample :
    GetShape "" (Json.arr []) 50 = Shape.arr Shape.unknown
    ∧ Shape.arr Shape.unknown ≠ Shape.unknown :=
  ⟨rfl, fun h => Shape.noConfusion h⟩

/-- Claim C3, amended.  An empty array value (at any recursion depth still
within the bound) yields an `Array` shape whose children shape is `Unknown`;
in particular the `TestGetShape` input with an empty array at field `d`
infers `Array{Unknown}` at that field. -/
theorem C3_amended :
    (∀ (label : String) (d : Nat),
        GetShape label (Json.arr []) (d + 1) = Shape.arr Shape.unknown)
    ∧ GetShape "" emptyArrVal 50
        = Shape.arr (.obj [("a", .obj [("b", .scalar .number)]),
            ("d", .arr .unknown), ("c", .scalar .string)]) :=
  ⟨fun _ _ => rfl, rfl⟩

/-- Claim C4.  Merging two distinct scalar shapes produces a `Varied` shape
whose alternatives appear in first-occurrence order, and re-merging an
already-present alternative collapses the duplicate; consequently the two
`TestGetShape` arrays mixing a number and a string at field `a` infer
`Varied` alternatives `[Number, String]` and `[String, Number]`
respectively. -/
theorem C4_varied_first_occurrence_order :
    (∀ a b : ScalarName, a ≠ b →
        mergeShape (.scalar a) (.scalar b) = .varied [.scalar a, .scalar b]
        ∧ mergeShape (.varied [.scalar a, .scalar b]) (.scalar a)
            = .varied [.scalar a, .scalar b]
        ∧ mergeShape (.varied [.scalar a, .scalar b]) (.scalar b)
            = .varied [.scalar a, .scalar b])
    ∧ GetShape "" mixVal1 50
        = Shape.arr (.obj [("a", .varied [.scalar .number, .scalar .string])])
    ∧ GetShape "" mixVal2 50
        = Shape.arr (.obj [("a", .varied [.scalar .string, .scalar .number])]) := by
  refine ⟨?_, rfl, rfl⟩
  intro a b h
  cases a <;> cases b <;> first
    | exact absurd rfl h
    | exact ⟨rfl, rfl, rfl⟩

/-- Witness for claim C4 at the concrete scalar pair number/string. -/
theorem C4_witness :
    ScalarName.number ≠ ScalarName.string
    ∧ mergeShape (.scalar .number) (.scalar .string)
        = .varied [.scalar .number, .scalar .string] :=
  ⟨by decide,
   (C4_varied_first_occurrence_order.1 .number .string (by decide)).1⟩

/-- Claim C5.  A file whose entire contents fit within the byte budget is
decoded directly and `ShapeFromFile` returns, with a nil error, exactly the
shape that in-memory inference computes on the fully parsed document. -/
theorem C5_budget_fit_refines_infer
    (contents : List Char) (label : String) (maxBytes maxDepth : Nat) (v : Json)
    (hlen : contents.length ≤ maxBytes)
    (hparse : parseDoc contents = some v) :
    ShapeFromFile contents label maxBytes maxDepth
      = .ok (GetShape label v maxDepth) := by
  unfold ShapeFromFile
  rw [if_pos hlen, hparse]

/-- Witness for claim C5 at a concrete small document. -/
theorem C5_witness :
    (smallFile.length ≤ 100 ∧ parseDoc smallFile = some smallVal)
    ∧ ShapeFromFile smallFile "lbl" 100 50 = .ok (GetShape "lbl" smallVal 50) :=
  ⟨⟨by decide, rfl⟩, C5_budget_fit_refines_infer smallFile "lbl" 100 50 smallVal (by decide) rfl⟩

/-- Claim C2, counterexample.  The claim asserts that with `PrivateKey` kind
and no explicit key file, the signer of the FIRST default key file that
exists and successfully yields a signer is used.  In `envTwoKeys` both
`~/.ssh/id_rsa` and `~/.ssh/id_dsa` exist and parse (each yielding a signer
identified by its path); the probing loop of `getSSHClient` has no break and
overwrites the auth list on every existing file, so the client authenticates
with the LAST existing file's signer, not the first one's. -/
theorem C2_counterexample :
    (envTwoKeys.statExists (envTwoKeys.resolvePath "~/.ssh/id_rsa") = true
      ∧ getSSHPrivateKeySigner envTwoKeys (envTwoKeys.resolvePath "~/.ssh/id_rsa") ""
          = .ok (.publicKeys ⟨"~/.ssh/id_rsa"⟩))
    ∧ getSSHClient envTwoKeys siKey
        = .ok ⟨"u", [.publicKeys ⟨"~/.ssh/id_dsa"⟩], "host:22"⟩
    ∧ AuthMethod.publicKeys ⟨"~/.ssh/id_dsa"⟩ ≠ AuthMethod.publicKeys ⟨"~/.ssh/id_rsa"⟩ :=
  ⟨⟨rfl, rfl⟩, rfl, by decide⟩

/-- Claim C2, amended.  With `PrivateKey` kind and no explicit key file, the
fixed ordered list of default key locations is probed: (i) when none of them
exists the auth method list remains empty (and the subsequent dial proceeds
with it); (ii) an existing file whose signer construction fails aborts
`getSSHClient` with that error rather than falling through to the next file;
(iii) when several files exist and parse, each success overwrites the auth
list, so the LAST existing file's signer is the one used. -/
theorem C2_amended :
    (∀ (env : SSHEnv) (si : ServerInfo),
        si.kind = .privateKey →
        si.privateKeyFile = "" →
        env.statExists (env.resolvePath "~/.ssh/id_rsa") = false →
        env.statExists (env.resolvePath "~/.ssh/id_dsa") = false →
        env.statExists (env.resolvePath "~/.ssh/id_ed25519") = false →
        authForServer env si = .ok [])
    ∧ (∀ (env : SSHEnv) (f : String) (rest : List String) (acc : List AuthMethod)
          (e : String),
        env.statExists (env.resolvePath f) = true →
        getSSHPrivateKeySigner env (env.resolvePath f) "" = .error e →
        authFromDefaults env (f :: rest) acc = .error e)
    ∧ (∀ (env : SSHEnv) (am1 am2 : AuthMethod),
        env.statExists (env.resolvePath "~/.ssh/id_rsa") = true →
        env.statExists (env.resolvePath "~/.ssh/id_dsa") = true →
        env.statExists (env.resolvePath "~/.ssh/id_ed25519") = false →
        getSSHPrivateKeySigner env (env.resolvePath "~/.ssh/id_rsa") "" = .ok am1 →
        getSSHPrivateKeySigner env (env.resolvePath "~/.ssh/id_dsa") "" = .ok am2 →
        authFromDefaults env defaultKeyFiles [] = .ok [am2]) := by
  refine ⟨?_, ?_, ?_⟩
  · intro env si hk hf h1 h2 h3
    simp only [authForServer, hk, hf, ne_eq, not_true_eq_false, if_false,
      defaultKeyFiles, authFromDefaults, h1, h2, h3, Bool.false_eq_true, ite_false]
  · intro env f rest acc e h1 h2
    simp only [authFromDefaults, h1, h2, if_true]
  · intro env am1 am2 h1 h2 h3 hs1 hs2
    simp only [defaultKeyFiles, authFromDefaults, h1, h2, h3, hs1, hs2, if_true,
      Bool.false_eq_true, ite_false]

/-- Witness for the amended claim C2: no file exists (empty auth list), an
unreadable existing file aborts, and with two existing parsing files the
last one's signer wins. -/
theorem C2_amended_witness :
    authForServer envPw siKey = .ok []
    ∧ authFromDefaults envBadKey ["~/.ssh/id_rsa"] [] = .error "Unable to read private key: boom"
    ∧ authFromDefaults envTwoKeys defaultKeyFiles []
        = .ok [.publicKeys ⟨"~/.ssh/id_dsa"⟩] :=
  ⟨C2_amended.1 envPw siKey rfl rfl rfl rfl rfl,
   C2_amended.2.1 envBadKey "~/.ssh/id_rsa" [] [] "Unable to read private key: boom" rfl rfl,
   C2_amended.2.2 envTwoKeys (.publicKeys ⟨"~/.ssh/id_rsa"⟩) (.publicKeys ⟨"~/.ssh/id_dsa"⟩)
     rfl rfl rfl rfl rfl⟩

/-- Claim C6.  In `withRemoteConnection` with a non-nil server descriptor,
once the setup (listen, SSH client, remote dial) has succeeded: a non-nil
callback error is returned immediately and no receive on the error channel
is performed; otherwise exactly one non-blocking receive happens — an
available `io.EOF` is treated as a normal close (nil is returned), any other
available error is returned, and when nothing is available nil is returned
without blocking. -/
theorem C6_post_callback_error_channel
    (env : TunnelEnv) (s : ServerInfo) (host port : String)
    (cb : String → String → Option GoErr) (c : SSHClientConn)
    (hlisten : env.listenErr = none)
    (hclient : getSSHClient env.ssh s = .ok c)
    (hdial : env.remoteDialErr (host ++ ":" ++ port) = none) :
    (∀ e, cb "localhost" (toString env.localPort) = some e →
        withRemoteConnection env (some s) host port cb
          = (some e, [.listen, .sshClient, .remoteDial (host ++ ":" ++ port),
              .callback "localhost" (toString env.localPort), .remoteClose, .listenClose]))
    ∧ (cb "localhost" (toString env.localPort) = none →
        ((withRemoteConnection env (some s) host port cb).2.count TEffect.chanRecvNB = 1
        ∧ (env.chanRecv = some (some .eof) →
            (withRemoteConnection env (some s) host port cb).1 = none)
        ∧ (∀ m, env.chanRecv = some (some (.msg m)) →
            (withRemoteConnection env (some s) host port cb).1 = some (.msg m))
        ∧ (env.chanRecv = some none →
            (withRemoteConnection env (some s) host port cb).1 = none)
        ∧ (env.chanRecv = none →
            (withRemoteConnection env (some s) host port cb).1 = none))) := by
  constructor
  · intro e hcb
    simp only [withRemoteConnection, hlisten, hclient, hdial, hcb]
    rfl
  · intro hcb
    refine ⟨?_, ?_, ?_, ?_, ?_⟩
    · simp only [withRemoteConnection, hlisten, hclient, hdial, hcb]
      rfl
    · intro hch
      simp only [withRemoteConnection, hlisten, hclient, hdial, hcb, hch]
    · intro m hch
      simp only [withRemoteConnection, hlisten, hclient, hdial, hcb, hch]
    · intro hch
      simp only [withRemoteConnection, hlisten, hclient, hdial, hcb, hch]
    · intro hch
      simp only [withRemoteConnection, hlisten, hclient, hdial, hcb, hch]

/-- Witness for claim C6: concrete tunnel setup whose error channel holds an
`io.EOF`, a callback returning nil; the call performs one non-blocking
receive and returns nil. -/
theorem C6_witness :
    (withRemoteConnection envTunnel (some siPw) "db" "5432" (fun _ _ => none)).2.count
        TEffect.chanRecvNB = 1
    ∧ (withRemoteConnection envTunnel (some siPw) "db" "5432" (fun _ _ => none)).1 = none :=
  have h := C6_post_callback_error_channel envTunnel siPw "db" "5432" (fun _ _ => none)
    ⟨"u", [.password "pw"], "host:22"⟩ rfl rfl rfl
  ⟨(h.2 rfl).1, (h.2 rfl).2.1 rfl⟩

/-- Claim C7.  `remoteFileReader` peeks the first two bytes of the remote
command's output stream without consuming them; exactly when they are
0x1F 0x8B the callback is invoked on the gzip-decompressed stream, and
otherwise the callback is invoked on the buffered raw stream unchanged, the
peeked bytes still readable. -/
theorem C7_gzip_magic_peek
    (env : RemoteEnv) (si : ServerInfo) (f : String)
    (cb : List Nat → Option String) (c : SSHClientConn) (b0 b1 : Nat) (rest : List Nat)
    (hclient : getSSHClient env.ssh si = .ok c)
    (hsession : env.newSessionErr = none)
    (hpipe : env.stdoutPipe = .ok (b0 :: b1 :: rest))
    (hstart : env.startErr (remoteCommand f) = none) :
    ((b0 = 0x1F ∧ b1 = 0x8B) →
        ∀ dz, env.gzipNewReader (b0 :: b1 :: rest) = .ok dz →
          (remoteFileReader env si f cb).2 = some dz)
    ∧ (¬(b0 = 0x1F ∧ b1 = 0x8B) →
        (remoteFileReader env si f cb).2 = some (b0 :: b1 :: rest)) := by
  constructor
  · intro hmagic dz hgz
    simp only [remoteFileReader, hclient, hsession, hpipe, hstart, if_pos hmagic, hgz]
    cases hc : cb dz <;> cases hw : env.waitErr <;> simp [hc, hw]
  · intro hmagic
    simp only [remoteFileReader, hclient, hsession, hpipe, hstart, if_neg hmagic]
    cases hc : cb (b0 :: b1 :: rest) <;> cases hw : env.waitErr <;> simp [hc, hw]

/-- Witness for claim C7: a stream starting with the gzip magic number is
handed to the callback decompressed. -/
theorem C7_witness :
    ((0x1F = 0x1F ∧ 0x8B = 0x8B)
      ∧ envRemote.gzipNewReader [0x1F, 0x8B, 7, 7] = .ok [9, 9])
    ∧ (remoteFileReader envRemote siPw "data.json" (fun _ => none)).2 = some [9, 9] :=
  ⟨⟨⟨rfl, rfl⟩, rfl⟩,
   (C7_gzip_magic_peek envRemote siPw "data.json" (fun _ => none)
      ⟨"u", [.password "pw"], "host:22"⟩ 0x1F 0x8B [7, 7] rfl rfl rfl rfl).1
     ⟨rfl, rfl⟩ [9, 9] rfl⟩

/-- Claim C8.  When the key file's PEM block is detected as encrypted and the
supplied passphrase fails to decrypt it, `getSSHPrivateKeySigner` reports the
dedicated decryption failure, not a generic key-parse error. -/
theorem C8_decryption_error
    (env : SSHEnv) (file pass pem : String) (block : PemBlock) (e : String)
    (hread : env.readFile (env.resolvePath file) = .ok pem)
    (hdecode : env.pemDecode pem = some block)
    (henc : env.isEncryptedPEMBlock block = true)
    (hdec : env.decryptPEMBlock block pass = .error e) :
    getSSHPrivateKeySigner env file pass
      = .error ("Decrypting private key failed: " ++ e) := by
  simp only [getSSHPrivateKeySigner, hread, hdecode, henc, hdec, if_true]

/-- Witness for claim C8: an encrypted key with a wrong passphrase fails
with the decryption error. -/
theorem C8_witness :
    (envEncKey.readFile (envEncKey.resolvePath "~/.ssh/id_rsa") = .ok "pem-bytes"
      ∧ envEncKey.isEncryptedPEMBlock ⟨"RSA PRIVATE KEY", "payload"⟩ = true
      ∧ envEncKey.decryptPEMBlock ⟨"RSA PRIVATE KEY", "payload"⟩ "wrong"
          = .error "bad passphrase")
    ∧ getSSHPrivateKeySigner envEncKey "~/.ssh/id_rsa" "wrong"
        = .error "Decrypting private key failed: bad passphrase" :=
  ⟨⟨rfl, rfl, rfl⟩,
   C8_decryption_error envEncKey "~/.ssh/id_rsa" "wrong" "pem-bytes"
     ⟨"RSA PRIVATE KEY", "payload"⟩ "bad passphrase" rfl rfl rfl rfl⟩

/-- Claim C9.  `withRemoteConnection` with no server descriptor returns
exactly the result of the callback on the original host and port, and its
effect trace contains only that callback invocation: no listener is bound,
no SSH client is built, no remote connection is dialed. -/
theorem C9_passthrough_no_tunnel
    (env : TunnelEnv) (host port : String) (cb : String → String → Option GoErr) :
    withRemoteConnection env none host port cb = (cb host port, [.callback host port]) :=
  rfl

/-- Claim C10.  When the key file's PEM block decodes and is not detected as
encrypted, the passphrase argument does not influence the outcome of
`getSSHPrivateKeySigner`: any two passphrases give the same result, and when
the raw PEM bytes parse into a signer that signer is returned for every
passphrase. -/
theorem C10_passphrase_noninterference
    (env : SSHEnv) (file p1 p2 pem : String) (block : PemBlock)
    (hread : env.readFile (env.resolvePath file) = .ok pem)
    (hdecode : env.pemDecode pem = some block)
    (henc : env.isEncryptedPEMBlock block = false) :
    getSSHPrivateKeySigner env file p1 = getSSHPrivateKeySigner env file p2
    ∧ (∀ s, env.parsePrivateKey pem = .ok s →
        getSSHPrivateKeySigner env file p1 = .ok (.publicKeys s)) := by
  constructor
  · simp only [getSSHPrivateKeySigner, hread, hdecode, henc, Bool.false_eq_true, if_false]
  · intro s hs
    simp only [getSSHPrivateKeySigner, hread, hdecode, henc, hs, Bool.false_eq_true, if_false]

/-- Witness for claim C10: an unencrypted key yields the same signer for two
different passphrases. -/
theorem C10_witness :
    (envPlainKey.readFile (envPlainKey.resolvePath "~/.ssh/id_rsa") = .ok "pem-bytes"
      ∧ envPlainKey.isEncryptedPEMBlock ⟨"RSA PRIVATE KEY", "payload"⟩ = false)
    ∧ getSSHPrivateKeySigner envPlainKey "~/.ssh/id_rsa" "wrong"
        = getSSHPrivateKeySigner envPlainKey "~/.ssh/id_rsa" "also-wrong"
    ∧ getSSHPrivateKeySigner envPlainKey "~/.ssh/id_rsa" "wrong"
        = .ok (.publicKeys ⟨"pem-bytes"⟩) :=
  have h := C10_passphrase_noninterference envPlainKey "~/.ssh/id_rsa" "wrong" "also-wrong"
    "pem-bytes" ⟨"RSA PRIVATE KEY", "payload"⟩ rfl rfl rfl
  ⟨⟨rfl, rfl⟩, h.1, h.2 ⟨"pem-bytes"⟩ rfl⟩

end Datastation
